import Mathlib

/-!
Shallow embedding of the `phonemes2ids` Python package
(`src/phonemes2ids/__init__.py`, `src/phonemes2ids/const.py`,
`src/phonemes2ids/utils.py`) together with theorems settling the
specification claims about it.

Conventions of the embedding:
* Python `str` is Lean `String`; iterating a Python string yields its
  characters (`String.data`).
* Python `dict` arguments are association lists `List (String × α)`;
  `dict.get` is first-match lookup (`dictGet`), dict assignment is
  replace-or-append (`dictSet`).
* Python `Optional` arguments are `Option`; the truthiness test
  `if s:` on an `Optional[str]` is `strTruthy` (`None` and `""` are falsy).
* `unicodedata.normalize("NFD", ·)` is an opaque parameter
  `nfd : String → String` supplied to both pipeline functions (the two
  Python functions call the very same library function).
* Python `str.isdigit` / `str.isspace` on a single character are the
  codepoint-range tables `pyIsDigit` / `pyIsSpace` generated from the
  Unicode data used by CPython (Numeric_Type Decimal/Digit, resp.
  White_Space plus the ASCII separators).
* exceptions are `Except EncodeError`; `KeyError` from
  `phoneme_to_id[blank]` and the `ValueError` raised by
  `maybe_extend_ids` are the two constructors.
-/

/-- Codepoint ranges (inclusive) on which Python `str.isdigit` returns
`True` for a single character: Unicode Numeric_Type Decimal or Digit.
Generated from the Unicode character database used by CPython. -/
def digitRanges : List (Nat × Nat) :=
  [(48, 57), (178, 179), (185, 185), (1632, 1641), (1776, 1785), (1984, 1993),
   (2406, 2415), (2534, 2543), (2662, 2671), (2790, 2799), (2918, 2927),
   (3046, 3055), (3174, 3183), (3302, 3311), (3430, 3439), (3558, 3567),
   (3664, 3673), (3792, 3801), (3872, 3881), (4160, 4169), (4240, 4249),
   (4969, 4977), (6112, 6121), (6160, 6169), (6470, 6479), (6608, 6618),
   (6784, 6793), (6800, 6809), (6992, 7001), (7088, 7097), (7232, 7241),
   (7248, 7257), (8304, 8304), (8308, 8313), (8320, 8329), (9312, 9320),
   (9332, 9340), (9352, 9360), (9450, 9450), (9461, 9469), (9471, 9471),
   (10102, 10110), (10112, 10120), (10122, 10130), (42528, 42537),
   (43216, 43225), (43264, 43273), (43472, 43481), (43504, 43513),
   (43600, 43609), (44016, 44025), (65296, 65305), (66720, 66729),
   (68160, 68163), (68912, 68921), (69216, 69224), (69714, 69722),
   (69734, 69743), (69872, 69881), (69942, 69951), (70096, 70105),
   (70384, 70393), (70736, 70745), (70864, 70873), (71248, 71257),
   (71360, 71369), (71472, 71481), (71904, 71913), (72016, 72025),
   (72784, 72793), (73040, 73049), (73120, 73129), (92768, 92777),
   (92864, 92873), (93008, 93017), (120782, 120831), (123200, 123209),
   (123632, 123641), (125264, 125273), (127232, 127242), (130032, 130041)]

/-- Python `c.isdigit()` for a single character `c`
(used by `phonemes2ids` line 157 and `learn_phoneme_ids` line 309). -/
def pyIsDigit (c : Char) : Bool :=
  digitRanges.any (fun r => decide (r.1 ≤ c.toNat) && decide (c.toNat ≤ r.2))

/-- Codepoint ranges (inclusive) on which Python `str.isspace` returns
`True` for a single character; this is also the separator set of
`str.split()` with no argument and of `str.strip()` with no argument. -/
def spaceRanges : List (Nat × Nat) :=
  [(9, 13), (28, 32), (133, 133), (160, 160), (5760, 5760), (8192, 8202),
   (8232, 8233), (8239, 8239), (8287, 8287), (12288, 12288)]

/-- Python `c.isspace()` for a single character `c`. -/
def pyIsSpace (c : Char) : Bool :=
  spaceRanges.any (fun r => decide (r.1 ≤ c.toNat) && decide (c.toNat ≤ r.2))

/-- Python dict lookup `m.get(k)`: first entry with the given key. -/
def dictGet {α : Type} (m : List (String × α)) (k : String) : Option α :=
  match m with
  | [] => none
  | (k2, v) :: rest => if k2 = k then some v else dictGet rest k

/-- Python dict assignment `m[k] = v`: replace the entry in place if the
key is present, else append it. -/
def dictSet {α : Type} (m : List (String × α)) (k : String) (v : α) :
    List (String × α) :=
  match m with
  | [] => [(k, v)]
  | (k2, v2) :: rest =>
      if k2 = k then (k2, v) :: rest else (k2, v2) :: dictSet rest k v

/-- Python truthiness of an `Optional[str]`: `None` and `""` are falsy. -/
def strTruthy : Option String → Bool
  | none => false
  | some s => !(s = "")

/-- Default punctuation simplification map
(`src/phonemes2ids/const.py`, `PUNCTUATION_MAP`). -/
def PUNCTUATION_MAP : List (String × String) :=
  [(";", ","), (":", ","), ("?", "."), ("!", ".")]

/-- Placement of blank tokens (`src/phonemes2ids/const.py`,
`class BlankBetween`).  The members `tokens` and `words` are translated
from `const.py` lines 12-20.

Modelled from the spec: the member `TOKENS_AND_WORDS` is referenced by
`phonemes2ids` (`__init__.py` lines 213 and 220) but its declaration is
missing from `src/phonemes2ids/const.py`; following the specification's
blank-placement policy table (a fourth policy value `tokens_and_words`
combining token-level and word-level blanks) it is modelled here as the
constructor `tokensAndWords`. -/
inductive BlankBetween where
  | tokens
  | words
  | tokensAndWords
  deriving DecidableEq, Repr

/-- Membership test `blank_between in {BlankBetween.WORDS,
BlankBetween.TOKENS_AND_WORDS}` (`__init__.py` line 213). -/
def BlankBetween.isWordLevel : BlankBetween → Bool
  | .words => true
  | .tokensAndWords => true
  | .tokens => false

/-- Membership test `blank_between in {BlankBetween.TOKENS,
BlankBetween.TOKENS_AND_WORDS}` (`__init__.py` line 220). -/
def BlankBetween.isTokenLevel : BlankBetween → Bool
  | .tokens => true
  | .tokensAndWords => true
  | .words => false

/-- Exceptions that `phonemes2ids` can raise:
`keyError s` is the `KeyError` raised by `phoneme_to_id[blank]` /
`phoneme_to_id[blank_word]` (`__init__.py` lines 92-97) when a configured
blank symbol is absent from the table; `missingPhoneme s` is the
`ValueError("No id for phoneme: ...")` raised by `maybe_extend_ids`
(line 128). -/
inductive EncodeError where
  | keyError (symbol : String)
  | missingPhoneme (symbol : String)
  deriving DecidableEq, Repr

/-- Tone stripping (`__init__.py` lines 150-162, identically
`learn_phoneme_ids` lines 305-314): pop digits off the back of the
phoneme, then rebuild the tone string in left-to-right order.  Returns
`(remaining phoneme, tone)`; the tone is `""` when no digits trail. -/
def stripTone (phoneme : String) : String × String :=
  let rev := phoneme.data.reverse
  let toneChars := rev.takeWhile pyIsDigit
  let rest := rev.dropWhile pyIsDigit
  (String.mk rest.reverse, String.mk toneChars.reverse)

/-- Separator splitting loop body (`__init__.py` lines 174-189,
identically `learn_phoneme_ids` lines 325-340): walk the codepoints,
accumulating `before_split`; on a separator codepoint flush the
accumulator (if non-empty) and emit the codepoint alone; flush the
accumulator at the end. -/
def splitSepGo (separate : List String) : List Char → String → List String
  | [], before => if before = "" then [] else [before]
  | c :: cs, before =>
      if separate.contains c.toString then
        (if before = "" then [] else [before]) ++
          c.toString :: splitSepGo separate cs ""
      else splitSepGo separate cs (before.push c)

/-- Separator splitting of one phoneme (`__init__.py` lines 168-189):
when the separator collection is empty (Python: `is_separate is None`)
the phoneme stays whole, else it is split around separator codepoints. -/
def splitSeparate (separate : List String) (phoneme : String) : List String :=
  if separate.isEmpty then [phoneme]
  else splitSepGo separate phoneme.data ""

/-- Application of the phoneme map to a sub-phoneme (`__init__.py` lines
198-205, identically `learn_phoneme_ids` lines 349-359):
`to_phonemes = phoneme_map.get(sub_phoneme); if to_phonemes:` — a missing
key or a value that is an empty sequence (falsy) leaves the sub-phoneme
itself to be processed. -/
def applyPhonemeMap (phoneme_map : List (String × List String))
    (sub : String) : List String :=
  match dictGet phoneme_map sub with
  | some ts => if ts.isEmpty then [sub] else ts
  | none => [sub]

/-- Symbols produced from one sub-phoneme by the Encoder
(`phonemes2ids`, `__init__.py` lines 191-205): skip an empty
sub-phoneme, then punctuation simplification (guarded by
`simple_punctuation and punctuation_map`, line 195 — note the truthiness
test on the map), then the phoneme map. -/
def subSymbolsEnc (simple_punctuation : Bool)
    (punctuation_map : List (String × String))
    (phoneme_map : List (String × List String)) (sub : String) :
    List String :=
  if sub = "" then []
  else
    let sub2 := if simple_punctuation && !punctuation_map.isEmpty then
        (dictGet punctuation_map sub).getD sub
      else sub
    applyPhonemeMap phoneme_map sub2

/-- Symbols produced from one sub-phoneme by the VocabularyLearner
(`learn_phoneme_ids`, `__init__.py` lines 342-359): identical to
`subSymbolsEnc` except that the punctuation step is guarded by
`if simple_punctuation:` alone (line 346). -/
def subSymbolsLearn (simple_punctuation : Bool)
    (punctuation_map : List (String × String))
    (phoneme_map : List (String × List String)) (sub : String) :
    List String :=
  if sub = "" then []
  else
    let sub2 := if simple_punctuation then
        (dictGet punctuation_map sub).getD sub
      else sub
    applyPhonemeMap phoneme_map sub2

/-- Ordered sequence of symbols that the Encoder submits to id
resolution (`maybe_extend_ids` with target `word_ids`) for one phoneme
token, `__init__.py` lines 149-209: optional tone stripping, the tone
resolved before the remaining symbols when `tone_before` else after,
separator splitting, and per-sub-phoneme processing. -/
def encPhonemeSymbols (separate_tones tone_before : Bool)
    (separate : List String) (simple_punctuation : Bool)
    (punctuation_map : List (String × String))
    (phoneme_map : List (String × List String)) (phoneme : String) :
    List String :=
  let pt := if separate_tones then stripTone phoneme else (phoneme, "")
  let core := (splitSeparate separate pt.1).flatMap
    (subSymbolsEnc simple_punctuation punctuation_map phoneme_map)
  (if !(pt.2 = "") && tone_before then [pt.2] else []) ++ core ++
    (if !(pt.2 = "") && !tone_before then [pt.2] else [])

/-- Ordered sequence of symbols that the VocabularyLearner adds to the
discovered set for one phoneme token (`learn_phoneme_ids`, `__init__.py`
lines 303-359): the tone (if any) is added right when it is extracted
(lines 313-317), then the split sub-phonemes are processed. -/
def learnPhonemeSymbols (separate_tones : Bool) (separate : List String)
    (simple_punctuation : Bool)
    (punctuation_map : List (String × String))
    (phoneme_map : List (String × List String)) (phoneme : String) :
    List String :=
  let pt := if separate_tones then stripTone phoneme else (phoneme, "")
  (if !(pt.2 = "") then [pt.2] else []) ++
    (splitSeparate separate pt.1).flatMap
      (subSymbolsLearn simple_punctuation punctuation_map phoneme_map)

/-- Grapheme decomposition of a word (`__init__.py` lines 142-147,
identically `learn_phoneme_ids` lines 296-301): replace the word by the
chained single-codepoint strings of the NFD normalization of each
phoneme. -/
def graphemeExpand (nfd : String → String) (separate_graphemes : Bool)
    (word : List String) : List String :=
  if separate_graphemes then
    word.flatMap (fun p => (nfd p).data.map Char.toString)
  else word

/-- All symbols the Encoder submits to id resolution for one word
(the `for phoneme in word` loop of `__init__.py` lines 149-209 after the
grapheme expansion of lines 142-147). -/
def encWordSymbols (nfd : String → String)
    (separate_graphemes separate_tones tone_before : Bool)
    (separate : List String) (simple_punctuation : Bool)
    (punctuation_map : List (String × String))
    (phoneme_map : List (String × List String)) (word : List String) :
    List String :=
  (graphemeExpand nfd separate_graphemes word).flatMap
    (encPhonemeSymbols separate_tones tone_before separate
      simple_punctuation punctuation_map phoneme_map)

/-- The id-resolution helper `maybe_extend_ids` (`__init__.py` lines
102-128), in its `append_list=False` form (target `word_ids`, a flat id
list): an empty phoneme contributes nothing (line 107); a table hit
contributes exactly its id (lines 110-115); else a configured
`missing_func` is consulted and a truthy (non-empty) result is used
(lines 118-125); else, with `fail_on_missing`, the `ValueError` naming
the phoneme is raised (lines 127-128); else nothing is contributed. -/
def maybe_extend_ids (phoneme_to_id : List (String × Int))
    (missing_func : Option (String → Option (List Int)))
    (fail_on_missing : Bool) (phoneme : String) :
    Except EncodeError (List Int) :=
  if phoneme = "" then .ok []
  else
    match dictGet phoneme_to_id phoneme with
    | some i => .ok [i]
    | none =>
      match missing_func with
      | some f =>
        match f phoneme with
        | some ids =>
          if ids.isEmpty then
            if fail_on_missing then .error (.missingPhoneme phoneme)
            else .ok []
          else .ok ids
        | none =>
          if fail_on_missing then .error (.missingPhoneme phoneme)
          else .ok []
      | none =>
        if fail_on_missing then .error (.missingPhoneme phoneme)
        else .ok []

/-- The `append_list=True` form of `maybe_extend_ids` (target
`word_phoneme_ids`, a list of id lists, used for `bos`/`eos`): the same
resolution, but the resolved ids are appended as one group (lines
112-113 append `[maybe_id]`, line 122 appends `maybe_ids`). -/
def maybe_extend_ids_group (phoneme_to_id : List (String × Int))
    (missing_func : Option (String → Option (List Int)))
    (fail_on_missing : Bool) (phoneme : String) :
    Except EncodeError (List (List Int)) :=
  (maybe_extend_ids phoneme_to_id missing_func fail_on_missing
    phoneme).map (fun ids => if ids.isEmpty then [] else [ids])

/-- Resolution of a sequence of symbols in order into one flat id list,
i.e. the successive `maybe_extend_ids(..., word_ids, append_list=False)`
calls of the phoneme loop; the first raised error propagates. -/
def extendAll (resolve : String → Except EncodeError (List Int)) :
    List String → Except EncodeError (List Int)
  | [] => .ok []
  | s :: rest => do
    let ids ← resolve s
    let more ← extendAll resolve rest
    .ok (ids ++ more)

/-- The token-level blank interleaving of `__init__.py` lines 223-234:
`zip_longest(word_ids, repeat(blank_id, len(word_ids)))` flattened.
Since the repetition count equals the length of the list, every id is
paired with exactly one blank: `[p, blank, p, blank, ...]`. -/
def interleaveBlank (blank_id : Int) : List Int → List Int
  | [] => []
  | i :: rest => i :: blank_id :: interleaveBlank blank_id rest

/-- Processing of one word by the Encoder (`__init__.py` lines 139-245):
grapheme expansion, the phoneme loop resolving every submitted symbol
into `word_ids`, and — for a non-empty `word_ids` — the blank insertion
policy (word-level blank append, lines 211-217; token-level
interleaving and the trailing-blank drop for the last word, lines
219-242).  Returns the groups this word appends to `word_phoneme_ids`
(`[]` or one group). -/
def processWord (phoneme_to_id : List (String × Int))
    (missing_func : Option (String → Option (List Int)))
    (fail_on_missing : Bool) (nfd : String → String)
    (separate_graphemes separate_tones tone_before : Bool)
    (separate : List String) (simple_punctuation : Bool)
    (punctuation_map : List (String × String))
    (phoneme_map : List (String × List String))
    (blank_id blank_word_id : Option Int) (blank_between : BlankBetween)
    (blank_at_end : Bool) (isLast : Bool) (word : List String) :
    Except EncodeError (List (List Int)) := do
  let symbols := encWordSymbols nfd separate_graphemes separate_tones
    tone_before separate simple_punctuation punctuation_map phoneme_map word
  let word_ids ← extendAll
    (maybe_extend_ids phoneme_to_id missing_func fail_on_missing) symbols
  if word_ids.isEmpty then pure []
  else
    let word_ids1 :=
      match blank_word_id, blank_between.isWordLevel with
      | some wb, true =>
          if !isLast || blank_at_end then word_ids ++ [wb] else word_ids
      | _, _ => word_ids
    match blank_id, blank_between.isTokenLevel with
    | some b, true =>
        let inter := interleaveBlank b word_ids1
        let inter2 := if isLast && !blank_at_end && !inter.isEmpty then
            inter.dropLast
          else inter
        pure [inter2]
    | _, _ => pure [word_ids1]

/-- The `for word_idx, word in enumerate(word_phonemes)` loop
(`__init__.py` lines 138-245): a word is the last one exactly when no
words follow it. -/
def processWords (phoneme_to_id : List (String × Int))
    (missing_func : Option (String → Option (List Int)))
    (fail_on_missing : Bool) (nfd : String → String)
    (separate_graphemes separate_tones tone_before : Bool)
    (separate : List String) (simple_punctuation : Bool)
    (punctuation_map : List (String × String))
    (phoneme_map : List (String × List String))
    (blank_id blank_word_id : Option Int) (blank_between : BlankBetween)
    (blank_at_end : Bool) :
    List (List String) → Except EncodeError (List (List Int))
  | [] => pure []
  | w :: ws => do
    let gs ← processWord phoneme_to_id missing_func fail_on_missing nfd
      separate_graphemes separate_tones tone_before separate
      simple_punctuation punctuation_map phoneme_map blank_id
      blank_word_id blank_between blank_at_end ws.isEmpty w
    let rest ← processWords phoneme_to_id missing_func fail_on_missing nfd
      separate_graphemes separate_tones tone_before separate
      simple_punctuation punctuation_map phoneme_map blank_id
      blank_word_id blank_between blank_at_end ws
    pure (gs ++ rest)

/-- Lookup of a configured blank symbol (`__init__.py` lines 91-97):
`phoneme_to_id[blank]` raises `KeyError(blank)` when absent.  The
truthiness guard `if blank:` means `None` and `""` are skipped. -/
def blankLookup (phoneme_to_id : List (String × Int))
    (blank : Option String) (dflt : Option Int) :
    Except EncodeError (Option Int) :=
  match blank with
  | none => .ok dflt
  | some b =>
      if b = "" then .ok dflt
      else
        match dictGet phoneme_to_id b with
        | some i => .ok (some i)
        | none => .error (.keyError b)

/-- Resolution of a configured `bos`/`eos` symbol (`__init__.py` lines
131-132 and 248-249): guarded by string truthiness, resolved through
`maybe_extend_ids` with the `word_phoneme_ids` target. -/
def bosEosGroups (phoneme_to_id : List (String × Int))
    (missing_func : Option (String → Option (List Int)))
    (fail_on_missing : Bool) (sym : Option String) :
    Except EncodeError (List (List Int)) :=
  match sym with
  | none => .ok []
  | some s =>
      if s = "" then .ok []
      else maybe_extend_ids_group phoneme_to_id missing_func
        fail_on_missing s

/-- The Encoder `phonemes2ids` (`src/phonemes2ids/__init__.py` lines
25-251).  Parameters appear in the order of the Python signature; dicts
are association lists, the `None` defaults of `phoneme_map` /
`punctuation_map` (lines 75-81: `{}` resp. `PUNCTUATION_MAP`) are taken
with `Option.getD`, `separate` collapses `None` and an empty collection
(both falsy at line 86) to `[]`, and `nfd` stands for
`unicodedata.normalize("NFD", ·)`.  The `pad` argument is accepted and
never read, as in the source (line 28). -/
def phonemes2ids (word_phonemes : List (List String))
    (phoneme_to_id : List (String × Int))
    (pad bos eos blank blank_word : Option String)
    (blank_between : BlankBetween)
    (blank_at_start blank_at_end simple_punctuation : Bool)
    (punctuation_map : Option (List (String × String)))
    (separate : List String)
    (separate_graphemes separate_tones tone_before : Bool)
    (phoneme_map : Option (List (String × List String)))
    (missing_func : Option (String → Option (List Int)))
    (fail_on_missing : Bool) (nfd : String → String) :
    Except EncodeError (List Int) := do
  let pmap := phoneme_map.getD []
  let punct := punctuation_map.getD PUNCTUATION_MAP
  let blank_id ← blankLookup phoneme_to_id blank none
  let blank_word_id ← blankLookup phoneme_to_id blank_word blank_id
  let bosGroups ← bosEosGroups phoneme_to_id missing_func fail_on_missing bos
  let startGroups : List (List Int) :=
    match blank_id, blank_at_start with
    | some b, true => [[b]]
    | _, _ => []
  let wordGroups ← processWords phoneme_to_id missing_func fail_on_missing
    nfd separate_graphemes separate_tones tone_before separate
    simple_punctuation punct pmap blank_id blank_word_id blank_between
    blank_at_end word_phonemes
  let eosGroups ← bosEosGroups phoneme_to_id missing_func fail_on_missing eos
  pure ((bosGroups ++ startGroups ++ wordGroups ++ eosGroups).flatten)

/-- The ordered sequence of all symbols the Encoder submits to id
resolution during its word loop (the arguments of the
`maybe_extend_ids(..., word_ids)` calls of `__init__.py` lines 149-209,
across all words); `processWord` resolves exactly this sequence per
word. -/
def encoderSubmitted (nfd : String → String)
    (separate_graphemes separate_tones tone_before : Bool)
    (separate : List String) (simple_punctuation : Bool)
    (punctuation_map : Option (List (String × String)))
    (phoneme_map : Option (List (String × List String)))
    (word_phonemes : List (List String)) : List String :=
  word_phonemes.flatMap
    (encWordSymbols nfd separate_graphemes separate_tones tone_before
      separate simple_punctuation (punctuation_map.getD PUNCTUATION_MAP)
      (phoneme_map.getD []))

/-- The VocabularyLearner `learn_phoneme_ids`
(`src/phonemes2ids/__init__.py` lines 257-362), modelled as the ordered
trace of symbols it adds: the Python function mutates the caller's set
and counter, performing `all_phonemes.add(s)` (and the counter
increment) once per element of this trace; the resulting set is the
union of the initial set with the elements of the trace.  Defaults and
truthiness are handled exactly as in `phonemes2ids`. -/
def learn_phoneme_ids (word_phonemes : List (List String))
    (simple_punctuation : Bool)
    (punctuation_map : Option (List (String × String)))
    (separate : List String) (separate_graphemes separate_tones : Bool)
    (phoneme_map : Option (List (String × List String)))
    (nfd : String → String) : List String :=
  word_phonemes.flatMap (fun word =>
    (graphemeExpand nfd separate_graphemes word).flatMap
      (learnPhonemeSymbols separate_tones separate simple_punctuation
        (punctuation_map.getD PUNCTUATION_MAP) (phoneme_map.getD [])))

/-- Python `line.strip("\r\n")` (`utils.py` lines 19 and 46): remove
carriage-return and newline characters from both ends of the line. -/
def pyStripCRLF (s : String) : String :=
  String.mk (((s.data.dropWhile (fun c => c = '\r' || c = '\n')).reverse.dropWhile
    (fun c => c = '\r' || c = '\n')).reverse)

/-- Python `line.startswith("#")` for the one-character prefix `"#"`:
the first character is `'#'`. -/
def pyStartsWithHash (s : String) : Bool :=
  match s.data with
  | [] => false
  | c :: _ => c = '#'

/-- Python `line.split(" ", maxsplit=1)` (`utils.py` line 51) for a line
known to contain a space: the characters before the first space and the
characters after it. -/
def pySplitOnceSpace : List Char → List Char × List Char
  | [] => ([], [])
  | c :: cs =>
      if c = ' ' then ([], cs)
      else
        let p := pySplitOnceSpace cs
        (c :: p.1, p.2)

/-- Python `s.strip()` with no argument: remove whitespace characters
(`pyIsSpace`) from both ends. -/
def pyStripWs (s : String) : String :=
  String.mk (((s.data.dropWhile pyIsSpace).reverse.dropWhile pyIsSpace).reverse)

/-- Accumulator loop of Python `s.split()` with no argument: split on
runs of whitespace, producing no empty fields. -/
def pySplitWsGo : List Char → List Char → List String
  | [], acc => if acc.isEmpty then [] else [String.mk acc.reverse]
  | c :: cs, acc =>
      if pyIsSpace c then
        (if acc.isEmpty then [] else [String.mk acc.reverse]) ++ pySplitWsGo cs []
      else pySplitWsGo cs (c :: acc)

/-- Python `s.split()` with no argument (`utils.py` line 57). -/
def pySplitWs (s : String) : List String :=
  pySplitWsGo s.data []

/-- One iteration of the `for line in phoneme_map_file` loop of
`load_phoneme_map` (`utils.py` lines 45-57): strip the line ends, skip
blank/comment/separator-less lines, else split off the first
space-separated field and store the split right-hand side (a single
space symbol when the right-hand side strips to nothing). -/
def loadPhonemeMapLine (phoneme_map : List (String × List String))
    (line : String) : List (String × List String) :=
  let l := pyStripCRLF line
  if l = "" || pyStartsWithHash l || !(l.data.contains ' ') then phoneme_map
  else
    let p := pySplitOnceSpace l.data
    let from_phoneme := String.mk p.1
    let to_phonemes_str := String.mk p.2
    if pyStripWs to_phonemes_str = "" then
      dictSet phoneme_map from_phoneme [" "]
    else
      dictSet phoneme_map from_phoneme (pySplitWs to_phonemes_str)

/-- The loader `load_phoneme_map` (`src/phonemes2ids/utils.py` lines
30-59), with the text file given as its sequence of lines. -/
def load_phoneme_map (lines : List String) : List (String × List String) :=
  lines.foldl loadPhonemeMapLine []

/-- One line of `load_phoneme_map` as the specification describes it: a
line that is empty, starts with `'#'`, or contains no space is skipped;
otherwise the first space-separated field maps to the
whitespace-separated fields of the rest of the line, except that a rest
consisting entirely of whitespace maps to the single space symbol. -/
def loadPhonemeMapLineSpec (phoneme_map : List (String × List String))
    (line : String) : List (String × List String) :=
  let l := pyStripCRLF line
  if l.data.isEmpty || pyStartsWithHash l || !(l.data.contains ' ') then
    phoneme_map
  else
    let firstField := String.mk (l.data.takeWhile (fun c => !(c = ' ')))
    let rest := (l.data.dropWhile (fun c => !(c = ' '))).tail
    if rest.all pyIsSpace then dictSet phoneme_map firstField [" "]
    else dictSet phoneme_map firstField (pySplitWs (String.mk rest))

/-- The loader as the specification describes it, line by line. -/
def loadPhonemeMapSpec (lines : List String) : List (String × List String) :=
  lines.foldl loadPhonemeMapLineSpec []

/-- The per-word blank placement of the `tokens_and_words` policy as the
(amended) claim states it: append the word-blank id to the end of the
word's own ids unless this is the last word and blank-at-end is false;
interleave the token-blank id after every id of the resulting sequence;
and for the last word with blank-at-end false drop the trailing
token-blank. -/
def tawWordSpec (token_blank word_blank : Int) (blank_at_end isLast : Bool)
    (ids : List Int) : List Int :=
  let appended := if isLast && !blank_at_end then ids else ids ++ [word_blank]
  let inter := appended.flatMap (fun i => [i, token_blank])
  if isLast && !blank_at_end then inter.dropLast else inter

/-- Truth of "every configured blank symbol resolves": the `blank`
argument is unset (falsy) or present in the table, i.e. `__init__.py`
lines 91-93 do not raise. -/
def blankOk (phoneme_to_id : List (String × Int)) (blank : Option String) :
    Bool :=
  match blank with
  | none => true
  | some s => s = "" || (dictGet phoneme_to_id s).isSome

/-- C9: for every input and every fixed setting of all other arguments,
the output of `phonemes2ids` is identical for any two values of the
`pad` argument — `pad` is accepted by the interface but never influences
the result. -/
theorem claim9_pad_never_influences_output
    (word_phonemes : List (List String)) (phoneme_to_id : List (String × Int))
    (bos eos blank blank_word : Option String) (blank_between : BlankBetween)
    (blank_at_start blank_at_end simple_punctuation : Bool)
    (punctuation_map : Option (List (String × String)))
    (separate : List String) (separate_graphemes separate_tones tone_before : Bool)
    (phoneme_map : Option (List (String × List String)))
    (missing_func : Option (String → Option (List Int)))
    (fail_on_missing : Bool) (nfd : String → String)
    (pad1 pad2 : Option String) :
    phonemes2ids word_phonemes phoneme_to_id pad1 bos eos blank blank_word
      blank_between blank_at_start blank_at_end simple_punctuation
      punctuation_map separate separate_graphemes separate_tones tone_before
      phoneme_map missing_func fail_on_missing nfd =
    phonemes2ids word_phonemes phoneme_to_id pad2 bos eos blank blank_word
      blank_between blank_at_start blank_at_end simple_punctuation
      punctuation_map separate separate_graphemes separate_tones tone_before
      phoneme_map missing_func fail_on_missing nfd := rfl

/-- C3: on input words `[["a"],["b"],["c"],["b","c","a"]]` with table
`{a:1, b:2, c:3, #:4}`, blank symbol `"#"` and policy `words`, the
Encoder returns `[4,1,4,2,4,3,4,2,3,1,4]`; with `blank_at_start` and
`blank_at_end` both false it returns `[1,4,2,4,3,4,2,3,1]`. -/
theorem claim3_blank_between_words_concrete :
    phonemes2ids [["a"], ["b"], ["c"], ["b", "c", "a"]]
      [("a", 1), ("b", 2), ("c", 3), ("#", 4)] none none none (some "#")
      none .words true true false none [] false false false none none
      false id = .ok [4, 1, 4, 2, 4, 3, 4, 2, 3, 1, 4] ∧
    phonemes2ids [["a"], ["b"], ["c"], ["b", "c", "a"]]
      [("a", 1), ("b", 2), ("c", 3), ("#", 4)] none none none (some "#")
      none .words false false false none [] false false false none none
      false id = .ok [1, 4, 2, 4, 3, 4, 2, 3, 1] :=
  ⟨rfl, rfl⟩

/-- C4: a non-empty symbol reaching id resolution that has no table
entry, and whose fallback is absent or returns none or an empty id
list, raises the missing-phoneme error naming that symbol in strict
mode and contributes no ids otherwise; in particular a fallback that
returns an empty id list does not suppress the strict-mode error. -/
theorem claim4_missing_symbol_resolution
    (phoneme_to_id : List (String × Int))
    (missing_func : Option (String → Option (List Int)))
    (fail_on_missing : Bool) (s : String)
    (hne : ¬s = "")
    (hmiss : dictGet phoneme_to_id s = none)
    (hfb : missing_func = none ∨
      ∃ f, missing_func = some f ∧ (f s = none ∨ f s = some [])) :
    (fail_on_missing = true →
      maybe_extend_ids phoneme_to_id missing_func fail_on_missing s =
        .error (.missingPhoneme s)) ∧
    (fail_on_missing = false →
      maybe_extend_ids phoneme_to_id missing_func fail_on_missing s =
        .ok []) := by
  unfold maybe_extend_ids
  rw [if_neg hne, hmiss]
  rcases hfb with h | ⟨f, hf, hfs⟩
  · subst h
    constructor <;> intro h <;> subst h <;> simp
  · subst hf
    rcases hfs with h | h <;> constructor <;> intro hb <;> subst hb <;>
      simp [h]

/-- Witness for C4 at a concrete input: symbol `"b"` is missing from the
table, the fallback returns the empty id list, and strict mode raises
the error naming `"b"`. -/
theorem claim4_missing_symbol_resolution_witness :
    maybe_extend_ids [("a", 1)] (some fun _ => some []) true "b" =
      .error (.missingPhoneme "b") :=
  (claim4_missing_symbol_resolution [("a", 1)] (some fun _ => some [])
    true "b" (by decide) (by decide)
    (Or.inr ⟨_, rfl, Or.inr rfl⟩)).1 rfl

/-- Counterexample for C2: with words `[["a"]]`, table
`{a:1, #:2, $:3}`, blank `"#"`, word-blank `"$"`, policy
`tokens_and_words`, and blank-at-start/blank-at-end both false, the
claim predicts `[1, 2]` (no word-blank appended since the word is last,
then the token-blank interleaved after every id), but the code
additionally drops the trailing token-blank and returns `[1]`. -/
theorem claim2_counterexample :
    phonemes2ids [["a"]] [("a", 1), ("#", 2), ("$", 3)] none none none
      (some "#") (some "$") .tokensAndWords false false false none []
      false false false none none false id = .ok [1] ∧
    ([1] : List Int) ≠ [1, 2] :=
  ⟨rfl, by decide⟩

/-- Counterexample for C5: with no blank, bos, or eos configured but a
word-blank `"$"` configured, every symbol present in the table, the
output `[1,2,1,2]` is not the concatenation `[1,1]` of the words'
resolved ids — the claim's hypothesis list omits the word-blank. -/
theorem claim5_counterexample :
    phonemes2ids [["a"], ["a"]] [("a", 1), ("$", 2)] none none none none
      (some "$") .words true true false none [] false false false none
      none false id = .ok [1, 2, 1, 2] ∧
    ([1, 2, 1, 2] : List Int) ≠ [1, 1] :=
  ⟨rfl, by decide⟩

/-- Counterexample for C6: the token `"a²"` has no trailing ASCII
decimal digit, so the claim predicts that no tone is emitted and the
token resolves whole (id `7` in the table below); but Python
`str.isdigit` is true for `'²'` (SUPERSCRIPT TWO, Unicode Numeric_Type
Digit), so the code strips it as a tone and produces `[3, 9]`. -/
theorem claim6_counterexample :
    phonemes2ids [["a²"]] [("a²", 7), ("a", 3), ("²", 9)] none none none
      none none .words true true false none [] false true false none
      none false id = .ok [3, 9] ∧
    ([3, 9] : List Int) ≠ [7] :=
  ⟨rfl, by decide⟩

/-- Counterexample for C7: the configured bos symbol `"^"` is absent
from the table, yet the call does not fail — with strict mode off and
no fallback, bos is resolved through the ordinary id-resolution path
and silently dropped, and the call returns `[1]`. -/
theorem claim7_counterexample :
    phonemes2ids [["a"]] [("a", 1)] none (some "^") none none none
      .words true true false none [] false false false none none false
      id = .ok [1] ∧
    (phonemes2ids [["a"]] [("a", 1)] none (some "^") none none none
      .words true true false none [] false false false none none false
      id).isOk = true :=
  ⟨rfl, rfl⟩

/-- The Encoder's and the VocabularyLearner's per-sub-phoneme processing
agree: the Encoder's extra truthiness guard on the punctuation map
(line 195 vs line 346) is immaterial, because looking a key up in an
empty map falls back to the key itself. -/
theorem subSymbolsEnc_eq_subSymbolsLearn (sp : Bool)
    (pm : List (String × String)) (pmap : List (String × List String))
    (sub : String) :
    subSymbolsEnc sp pm pmap sub = subSymbolsLearn sp pm pmap sub := by
  by_cases hsub : sub = ""
  · simp [subSymbolsEnc, subSymbolsLearn, hsub]
  · cases sp
    · simp [subSymbolsEnc, subSymbolsLearn, hsub]
    · cases pm with
      | nil => simp [subSymbolsEnc, subSymbolsLearn, hsub, dictGet]
      | cons hd tl => simp [subSymbolsEnc, subSymbolsLearn, hsub]

/-- Per phoneme token, the Encoder submits exactly the symbols the
VocabularyLearner adds, up to the position of the tone symbol. -/
theorem mem_encPhonemeSymbols_iff_learn (st tb : Bool) (sep : List String)
    (sp : Bool) (pm : List (String × String))
    (pmap : List (String × List String)) (p s : String) :
    s ∈ encPhonemeSymbols st tb sep sp pm pmap p ↔
    s ∈ learnPhonemeSymbols st sep sp pm pmap p := by
  have hsub : subSymbolsEnc sp pm pmap = subSymbolsLearn sp pm pmap :=
    funext (subSymbolsEnc_eq_subSymbolsLearn sp pm pmap)
  unfold encPhonemeSymbols learnPhonemeSymbols
  rw [hsub]
  generalize (if st = true then stripTone p else (p, "")) = pt
  obtain ⟨ph, tone⟩ := pt
  by_cases ht : tone = ""
  · cases tb <;> simp [ht, List.mem_append]
  · cases tb <;> simp [ht, List.mem_append, or_comm]

/-- C1: for every input and every fixed choice of the normalization and
mapping options, the set of symbols the Encoder submits to id
resolution equals the set of symbols the VocabularyLearner adds to the
discovered set. -/
theorem claim1_vocabulary_encoder_agreement (nfd : String → String)
    (separate_graphemes separate_tones tone_before : Bool)
    (separate : List String) (simple_punctuation : Bool)
    (punctuation_map : Option (List (String × String)))
    (phoneme_map : Option (List (String × List String)))
    (word_phonemes : List (List String)) (s : String) :
    s ∈ encoderSubmitted nfd separate_graphemes separate_tones tone_before
      separate simple_punctuation punctuation_map phoneme_map
      word_phonemes ↔
    s ∈ learn_phoneme_ids word_phonemes simple_punctuation punctuation_map
      separate separate_graphemes separate_tones phoneme_map nfd := by
  unfold encoderSubmitted learn_phoneme_ids encWordSymbols
  simp only [List.mem_flatMap]
  constructor
  · rintro ⟨w, hw, p, hp, hs⟩
    exact ⟨w, hw, p, hp,
      (mem_encPhonemeSymbols_iff_learn separate_tones tone_before separate
        simple_punctuation _ _ p s).mp hs⟩
  · rintro ⟨w, hw, p, hp, hs⟩
    exact ⟨w, hw, p, hp,
      (mem_encPhonemeSymbols_iff_learn separate_tones tone_before separate
        simple_punctuation _ _ p s).mpr hs⟩

/-- Interleaving a blank after every id: the flattened
`zip_longest(word_ids, repeat(blank_id, len(word_ids)))` places the
blank after each element. -/
theorem interleaveBlank_eq_flatMap (b : Int) (l : List Int) :
    interleaveBlank b l = l.flatMap (fun i => [i, b]) := by
  induction l with
  | nil => rfl
  | cons i rest ih => simp [interleaveBlank, ih]

/-- C2 (amended): for every non-empty word under
`blank_between = tokens_and_words` with a blank and a word-blank
configured, the Encoder first appends the word-blank id to the end of
the word's own ids (unless it is the last word and blank-at-end is
false), then interleaves the token-blank id after every id of the
resulting sequence, and — when it is the last word and blank-at-end is
false — finally drops the trailing token-blank. -/
theorem claim2_tokens_and_words_amended
    (phoneme_to_id : List (String × Int))
    (missing_func : Option (String → Option (List Int)))
    (fail_on_missing : Bool) (nfd : String → String)
    (sg st tb : Bool) (sep : List String) (sp : Bool)
    (pm : List (String × String)) (pmap : List (String × List String))
    (token_blank word_blank : Int) (blank_at_end isLast : Bool)
    (word : List String) (ids : List Int)
    (hresolve : extendAll
      (maybe_extend_ids phoneme_to_id missing_func fail_on_missing)
      (encWordSymbols nfd sg st tb sep sp pm pmap word) = .ok ids)
    (hne : ids ≠ []) :
    processWord phoneme_to_id missing_func fail_on_missing nfd sg st tb
      sep sp pm pmap (some token_blank) (some word_blank)
      .tokensAndWords blank_at_end isLast word =
    .ok [tawWordSpec token_blank word_blank blank_at_end isLast ids] := by
  obtain ⟨i, rest, rfl⟩ : ∃ i rest, ids = i :: rest := by
    cases ids with
    | nil => exact absurd rfl hne
    | cons i r => exact ⟨i, r, rfl⟩
  simp only [processWord, hresolve]
  cases isLast <;> cases blank_at_end <;>
    simp [tawWordSpec, BlankBetween.isWordLevel, BlankBetween.isTokenLevel,
      interleaveBlank_eq_flatMap, Except.bind, Bind.bind, Pure.pure,
      Except.pure]

/-- Witness for C2 at a concrete input: word `["a"]` with table
`{a:1, #:2, $:3}`, token-blank id 2, word-blank id 3, not the last
word — the word-blank is appended and the token-blank interleaved,
giving `[1, 2, 3, 2]`. -/
theorem claim2_tokens_and_words_amended_witness :
    processWord [("a", 1), ("#", 2), ("$", 3)] none false id false false
      false [] false [] [] (some 2) (some 3) .tokensAndWords true false
      ["a"] = .ok [[1, 2, 3, 2]] :=
  claim2_tokens_and_words_amended [("a", 1), ("#", 2), ("$", 3)] none
    false id false false false [] false [] [] 2 3 true false ["a"] [1]
    rfl (by decide)

/-- C7 (amended): a configured blank or word-blank symbol that is
absent from the table makes `phonemes2ids` fail immediately with the
`KeyError` naming it, before any word is processed and regardless of
the input; a configured bos/eos symbol is instead handled by the
ordinary id-resolution path (see the counterexample). -/
theorem claim7_blank_config_error_amended
    (word_phonemes : List (List String))
    (phoneme_to_id : List (String × Int)) (pad bos eos : Option String)
    (blank blank_word : Option String) (blank_between : BlankBetween)
    (blank_at_start blank_at_end simple_punctuation : Bool)
    (punctuation_map : Option (List (String × String)))
    (separate : List String)
    (separate_graphemes separate_tones tone_before : Bool)
    (phoneme_map : Option (List (String × List String)))
    (missing_func : Option (String → Option (List Int)))
    (fail_on_missing : Bool) (nfd : String → String) (bs : String) :
    (blank = some bs → ¬bs = "" → dictGet phoneme_to_id bs = none →
      phonemes2ids word_phonemes phoneme_to_id pad bos eos blank
        blank_word blank_between blank_at_start blank_at_end
        simple_punctuation punctuation_map separate separate_graphemes
        separate_tones tone_before phoneme_map missing_func
        fail_on_missing nfd = .error (.keyError bs)) ∧
    (blankOk phoneme_to_id blank = true → blank_word = some bs →
      ¬bs = "" → dictGet phoneme_to_id bs = none →
      phonemes2ids word_phonemes phoneme_to_id pad bos eos blank
        blank_word blank_between blank_at_start blank_at_end
        simple_punctuation punctuation_map separate separate_graphemes
        separate_tones tone_before phoneme_map missing_func
        fail_on_missing nfd = .error (.keyError bs)) := by
  constructor
  · intro hb hbs hmiss
    subst hb
    simp [phonemes2ids, blankLookup, hbs, hmiss, Except.bind, Bind.bind]
  · intro hok hbw hbs hmiss
    subst hbw
    have hfirst : ∃ d, blankLookup phoneme_to_id blank none = .ok d := by
      cases blank with
      | none => exact ⟨none, rfl⟩
      | some s =>
        simp only [blankOk] at hok
        by_cases hs : s = ""
        · exact ⟨none, by simp [blankLookup, hs]⟩
        · obtain ⟨i, hi⟩ := Option.isSome_iff_exists.mp (by
            rcases Bool.or_eq_true_iff.mp hok with h | h
            · exact absurd (by simpa using h) hs
            · exact h)
          exact ⟨some i, by simp [blankLookup, hs, hi]⟩
    obtain ⟨d, hd⟩ := hfirst
    simp only [phonemes2ids]
    rw [hd]
    simp [blankLookup, hbs, hmiss, Except.bind, Bind.bind]

/-- Witness for C7 at concrete inputs: a configured blank `"#"` missing
from the table `{a:1}` raises `KeyError("#")`; with blank `"a"` present
and word-blank `"#"` missing, `KeyError("#")` is raised as well. -/
theorem claim7_blank_config_error_amended_witness :
    phonemes2ids [["a"]] [("a", 1)] none none none (some "#") none
      .words true true false none [] false false false none none false
      id = .error (.keyError "#") ∧
    phonemes2ids [["a"]] [("a", 1)] none none none (some "a") (some "#")
      .words true true false none [] false false false none none false
      id = .error (.keyError "#") :=
  ⟨(claim7_blank_config_error_amended [["a"]] [("a", 1)] none none none
      (some "#") none .words true true false none [] false false false
      none none false id "#").1 rfl (by decide) rfl,
   (claim7_blank_config_error_amended [["a"]] [("a", 1)] none none none
      (some "a") (some "#") .words true true false none [] false false
      false none none false id "#").2 (by decide) rfl (by decide) rfl⟩

/-- A non-truthy optional symbol is `None` or the empty string. -/
theorem strTruthy_eq_false {o : Option String} (h : strTruthy o = false) :
    o = none ∨ o = some "" := by
  cases o with
  | none => exact Or.inl rfl
  | some s =>
    right
    have hs : s = "" := by simpa [strTruthy] using h
    rw [hs]

/-- A non-truthy blank argument leaves the default blank id unchanged
(`__init__.py` lines 89-97 with a falsy guard). -/
theorem blankLookup_not_truthy (phoneme_to_id : List (String × Int))
    {b : Option String} (h : strTruthy b = false) (d : Option Int) :
    blankLookup phoneme_to_id b d = .ok d := by
  rcases strTruthy_eq_false h with h | h <;> subst h <;> simp [blankLookup]

/-- A non-truthy bos/eos argument contributes nothing
(`__init__.py` lines 131-132 and 248-249 with a falsy guard). -/
theorem bosEosGroups_not_truthy (phoneme_to_id : List (String × Int))
    (missing_func : Option (String → Option (List Int)))
    (fail_on_missing : Bool) {b : Option String}
    (h : strTruthy b = false) :
    bosEosGroups phoneme_to_id missing_func fail_on_missing b = .ok [] := by
  rcases strTruthy_eq_false h with h | h <;> subst h <;> simp [bosEosGroups]

/-- When every non-empty submitted symbol is present in the table,
resolution never consults the fallback and never fails: it returns the
in-order table ids, empty symbols contributing nothing. -/
theorem extendAll_all_present (phoneme_to_id : List (String × Int))
    (missing_func : Option (String → Option (List Int)))
    (fail_on_missing : Bool) (syms : List String)
    (h : ∀ s ∈ syms, ¬s = "" → (dictGet phoneme_to_id s).isSome = true) :
    extendAll (maybe_extend_ids phoneme_to_id missing_func fail_on_missing)
      syms =
    .ok (syms.filterMap
      (fun s => if s = "" then none else dictGet phoneme_to_id s)) := by
  induction syms with
  | nil => rfl
  | cons s rest ih =>
    have hrest := ih (fun x hx => h x (List.mem_cons_of_mem _ hx))
    by_cases hs : s = ""
    · simp [extendAll, maybe_extend_ids, hs, hrest, Except.bind, Bind.bind,
        Pure.pure, Except.pure]
    · obtain ⟨i, hi⟩ := Option.isSome_iff_exists.mp
        (h s (List.mem_cons_self s rest) hs)
      simp [extendAll, maybe_extend_ids, hs, hi, hrest, Except.bind,
        Bind.bind, Pure.pure, Except.pure]

/-- With no blank ids configured, the word loop contributes each word's
resolved ids as its own group, empty words contributing nothing
(`__init__.py` lines 138-245 with `blank_id = blank_word_id = None`). -/
theorem processWords_no_blank_ids (phoneme_to_id : List (String × Int))
    (missing_func : Option (String → Option (List Int)))
    (fail_on_missing : Bool) (nfd : String → String)
    (sg st tb : Bool) (sep : List String) (sp : Bool)
    (pm : List (String × String)) (pmap : List (String × List String))
    (blank_between : BlankBetween) (blank_at_end : Bool)
    (words : List (List String))
    (h : ∀ w ∈ words, ∀ s ∈ encWordSymbols nfd sg st tb sep sp pm pmap w,
      ¬s = "" → (dictGet phoneme_to_id s).isSome = true) :
    processWords phoneme_to_id missing_func fail_on_missing nfd sg st tb
      sep sp pm pmap none none blank_between blank_at_end words =
    .ok (words.flatMap (fun w =>
      let ids := (encWordSymbols nfd sg st tb sep sp pm pmap w).filterMap
        (fun s => if s = "" then none else dictGet phoneme_to_id s)
      if ids.isEmpty then [] else [ids])) := by
  induction words with
  | nil => rfl
  | cons w ws ih =>
    have hw := extendAll_all_present phoneme_to_id missing_func
      fail_on_missing _ (h w (List.mem_cons_self w ws))
    have hws := ih (fun x hx => h x (List.mem_cons_of_mem _ hx))
    simp only [processWords, processWord, hw, hws, Except.bind, Bind.bind,
      Pure.pure, Except.pure, List.flatMap_cons]
    by_cases he : ((encWordSymbols nfd sg st tb sep sp pm pmap w).filterMap
        (fun s => if s = "" then none else dictGet phoneme_to_id s)).isEmpty
    · simp [he]
    · simp only [Bool.not_eq_true] at he
      simp [he]

/-- Flattening the per-word groups recovers the plain concatenation of
the per-word id lists. -/
theorem flatten_word_groups (f : List String → List Int)
    (words : List (List String)) :
    (words.flatMap (fun w =>
      if (f w).isEmpty then ([] : List (List Int)) else [f w])).flatten =
    words.flatMap f := by
  induction words with
  | nil => rfl
  | cons w ws ih =>
    simp only [List.flatMap_cons, List.flatten_append, ih]
    by_cases he : (f w).isEmpty
    · have h0 : f w = [] := by simpa using he
      simp [he, h0]
    · simp [he]

/-- C5 (amended): for every input in which every non-empty submitted
symbol is present in the table, and with no blank, word-blank, bos, or
eos configured, the Encoder's output is exactly the in-order
concatenation of each word's resolved ids, empty sub-symbol strings
contributing no ids. -/
theorem claim5_concatenation_amended
    (word_phonemes : List (List String))
    (phoneme_to_id : List (String × Int)) (pad : Option String)
    (bos eos blank blank_word : Option String)
    (blank_between : BlankBetween)
    (blank_at_start blank_at_end simple_punctuation : Bool)
    (punctuation_map : Option (List (String × String)))
    (separate : List String)
    (separate_graphemes separate_tones tone_before : Bool)
    (phoneme_map : Option (List (String × List String)))
    (missing_func : Option (String → Option (List Int)))
    (fail_on_missing : Bool) (nfd : String → String)
    (hbos : strTruthy bos = false) (heos : strTruthy eos = false)
    (hblank : strTruthy blank = false)
    (hblankw : strTruthy blank_word = false)
    (hpresent : ∀ w ∈ word_phonemes,
      ∀ s ∈ encWordSymbols nfd separate_graphemes separate_tones
        tone_before separate simple_punctuation
        (punctuation_map.getD PUNCTUATION_MAP) (phoneme_map.getD []) w,
      ¬s = "" → (dictGet phoneme_to_id s).isSome = true) :
    phonemes2ids word_phonemes phoneme_to_id pad bos eos blank blank_word
      blank_between blank_at_start blank_at_end simple_punctuation
      punctuation_map separate separate_graphemes separate_tones
      tone_before phoneme_map missing_func fail_on_missing nfd =
    .ok (word_phonemes.flatMap (fun w =>
      (encWordSymbols nfd separate_graphemes separate_tones tone_before
        separate simple_punctuation (punctuation_map.getD PUNCTUATION_MAP)
        (phoneme_map.getD []) w).filterMap
        (fun s => if s = "" then none else dictGet phoneme_to_id s))) := by
  have hpw := processWords_no_blank_ids phoneme_to_id missing_func
    fail_on_missing nfd separate_graphemes separate_tones tone_before
    separate simple_punctuation (punctuation_map.getD PUNCTUATION_MAP)
    (phoneme_map.getD []) blank_between blank_at_end word_phonemes hpresent
  simp only [phonemes2ids, blankLookup_not_truthy phoneme_to_id hblank,
    blankLookup_not_truthy phoneme_to_id hblankw,
    bosEosGroups_not_truthy phoneme_to_id missing_func fail_on_missing hbos,
    bosEosGroups_not_truthy phoneme_to_id missing_func fail_on_missing heos,
    hpw, Except.bind, Bind.bind, Pure.pure, Except.pure]
  congr 1
  simp only [List.nil_append, List.append_nil]
  exact flatten_word_groups
    (fun w => (encWordSymbols nfd separate_graphemes separate_tones
      tone_before separate simple_punctuation
      (punctuation_map.getD PUNCTUATION_MAP) (phoneme_map.getD []) w).filterMap
      (fun s => if s = "" then none else dictGet phoneme_to_id s))
    word_phonemes

/-- Witness for C5 at a concrete input: words `[["a"], ["b", "c"]]`
with table `{a:1, b:2, c:3}` and nothing else configured give the
concatenation of the words' resolved ids. -/
theorem claim5_concatenation_amended_witness :
    phonemes2ids [["a"], ["b", "c"]] [("a", 1), ("b", 2), ("c", 3)] none
      none none none none .words true true false none [] false false
      false none none false id =
    .ok ([["a"], ["b", "c"]].flatMap (fun w =>
      (encWordSymbols id false false false [] false
        ((none : Option (List (String × String))).getD PUNCTUATION_MAP)
        ((none : Option (List (String × List String))).getD []) w).filterMap
        (fun s => if s = "" then none
          else dictGet [("a", 1), ("b", 2), ("c", 3)] s))) :=
  claim5_concatenation_amended [["a"], ["b", "c"]]
    [("a", 1), ("b", 2), ("c", 3)] none none none none none .words true
    true false none [] false false false none none false id rfl rfl rfl
    rfl (by decide)

/-- A phoneme-map entry with an empty value list behaves, through
`applyPhonemeMap`, exactly like an absent key (both leave the
sub-symbol itself): the falsy-value test `if to_phonemes:` coincides
with the missing-key case. -/
theorem applyPhonemeMap_cons_empty (k : String)
    (pm : List (String × List String)) (hk : dictGet pm k = none)
    (s : String) :
    applyPhonemeMap ((k, []) :: pm) s = applyPhonemeMap pm s := by
  by_cases h : k = s
  · subst h
    simp [applyPhonemeMap, dictGet, hk]
  · simp [applyPhonemeMap, dictGet, h]

/-- Lifting of a pointwise `applyPhonemeMap` agreement to the Encoder's
per-sub-phoneme processing. -/
theorem subSymbolsEnc_map_congr (sp : Bool) (pm : List (String × String))
    {pmA pmB : List (String × List String)}
    (h : ∀ s, applyPhonemeMap pmA s = applyPhonemeMap pmB s)
    (sub : String) :
    subSymbolsEnc sp pm pmA sub = subSymbolsEnc sp pm pmB sub := by
  simp only [subSymbolsEnc, h]

/-- Lifting of a pointwise `applyPhonemeMap` agreement to the
VocabularyLearner's per-sub-phoneme processing. -/
theorem subSymbolsLearn_map_congr (sp : Bool)
    (pm : List (String × String)) {pmA pmB : List (String × List String)}
    (h : ∀ s, applyPhonemeMap pmA s = applyPhonemeMap pmB s)
    (sub : String) :
    subSymbolsLearn sp pm pmA sub = subSymbolsLearn sp pm pmB sub := by
  simp only [subSymbolsLearn, h]

/-- Lifting of the agreement to the Encoder's per-phoneme symbols. -/
theorem encPhonemeSymbols_map_congr (st tb : Bool) (sep : List String)
    (sp : Bool) (pm : List (String × String))
    {pmA pmB : List (String × List String)}
    (h : ∀ s, applyPhonemeMap pmA s = applyPhonemeMap pmB s)
    (p : String) :
    encPhonemeSymbols st tb sep sp pm pmA p =
    encPhonemeSymbols st tb sep sp pm pmB p := by
  have hs : subSymbolsEnc sp pm pmA = subSymbolsEnc sp pm pmB :=
    funext (subSymbolsEnc_map_congr sp pm h)
  simp only [encPhonemeSymbols, hs]

/-- Lifting of the agreement to the VocabularyLearner's per-phoneme
symbols. -/
theorem learnPhonemeSymbols_map_congr (st : Bool) (sep : List String)
    (sp : Bool) (pm : List (String × String))
    {pmA pmB : List (String × List String)}
    (h : ∀ s, applyPhonemeMap pmA s = applyPhonemeMap pmB s)
    (p : String) :
    learnPhonemeSymbols st sep sp pm pmA p =
    learnPhonemeSymbols st sep sp pm pmB p := by
  have hs : subSymbolsLearn sp pm pmA = subSymbolsLearn sp pm pmB :=
    funext (subSymbolsLearn_map_congr sp pm h)
  simp only [learnPhonemeSymbols, hs]

/-- Lifting of the agreement to the Encoder's per-word symbols. -/
theorem encWordSymbols_map_congr (nfd : String → String)
    (sg st tb : Bool) (sep : List String) (sp : Bool)
    (pm : List (String × String))
    {pmA pmB : List (String × List String)}
    (h : ∀ s, applyPhonemeMap pmA s = applyPhonemeMap pmB s)
    (w : List String) :
    encWordSymbols nfd sg st tb sep sp pm pmA w =
    encWordSymbols nfd sg st tb sep sp pm pmB w := by
  have hp : encPhonemeSymbols st tb sep sp pm pmA =
      encPhonemeSymbols st tb sep sp pm pmB :=
    funext (encPhonemeSymbols_map_congr st tb sep sp pm h)
  simp only [encWordSymbols, hp]

/-- Lifting of the agreement to the Encoder's whole word loop. -/
theorem processWords_map_congr (phoneme_to_id : List (String × Int))
    (missing_func : Option (String → Option (List Int)))
    (fail_on_missing : Bool) (nfd : String → String)
    (sg st tb : Bool) (sep : List String) (sp : Bool)
    (pm : List (String × String))
    {pmA pmB : List (String × List String)}
    (h : ∀ s, applyPhonemeMap pmA s = applyPhonemeMap pmB s)
    (blank_id blank_word_id : Option Int) (blank_between : BlankBetween)
    (blank_at_end : Bool) (words : List (List String)) :
    processWords phoneme_to_id missing_func fail_on_missing nfd sg st tb
      sep sp pm pmA blank_id blank_word_id blank_between blank_at_end
      words =
    processWords phoneme_to_id missing_func fail_on_missing nfd sg st tb
      sep sp pm pmB blank_id blank_word_id blank_between blank_at_end
      words := by
  induction words with
  | nil => rfl
  | cons w ws ih =>
    simp only [processWords, processWord,
      encWordSymbols_map_congr nfd sg st tb sep sp pm h, ih]

/-- C10: in both `phonemes2ids` and `learn_phoneme_ids`, a phoneme-map
entry whose value is an empty sequence behaves exactly like an absent
key — the sub-symbol itself is resolved (respectively added), not
dropped. -/
theorem claim10_empty_map_entry_like_absent
    (word_phonemes : List (List String))
    (phoneme_to_id : List (String × Int))
    (pad bos eos blank blank_word : Option String)
    (blank_between : BlankBetween)
    (blank_at_start blank_at_end simple_punctuation : Bool)
    (punctuation_map : Option (List (String × String)))
    (separate : List String)
    (separate_graphemes separate_tones tone_before : Bool)
    (missing_func : Option (String → Option (List Int)))
    (fail_on_missing : Bool) (nfd : String → String) (k : String)
    (pm : List (String × List String)) (hk : dictGet pm k = none) :
    phonemes2ids word_phonemes phoneme_to_id pad bos eos blank blank_word
      blank_between blank_at_start blank_at_end simple_punctuation
      punctuation_map separate separate_graphemes separate_tones
      tone_before (some ((k, []) :: pm)) missing_func fail_on_missing
      nfd =
    phonemes2ids word_phonemes phoneme_to_id pad bos eos blank blank_word
      blank_between blank_at_start blank_at_end simple_punctuation
      punctuation_map separate separate_graphemes separate_tones
      tone_before (some pm) missing_func fail_on_missing nfd ∧
    learn_phoneme_ids word_phonemes simple_punctuation punctuation_map
      separate separate_graphemes separate_tones (some ((k, []) :: pm))
      nfd =
    learn_phoneme_ids word_phonemes simple_punctuation punctuation_map
      separate separate_graphemes separate_tones (some pm) nfd := by
  have happ := applyPhonemeMap_cons_empty k pm hk
  constructor
  · simp only [phonemes2ids, Option.getD_some]
    simp only [processWords_map_congr phoneme_to_id missing_func
      fail_on_missing nfd separate_graphemes separate_tones tone_before
      separate simple_punctuation (punctuation_map.getD PUNCTUATION_MAP)
      happ]
  · have hl : learnPhonemeSymbols separate_tones separate
        simple_punctuation (punctuation_map.getD PUNCTUATION_MAP)
        ((k, []) :: pm) =
        learnPhonemeSymbols separate_tones separate simple_punctuation
        (punctuation_map.getD PUNCTUATION_MAP) pm :=
      funext (learnPhonemeSymbols_map_congr separate_tones separate
        simple_punctuation (punctuation_map.getD PUNCTUATION_MAP) happ)
    simp only [learn_phoneme_ids, Option.getD_some, hl]

/-- Witness for C10 at a concrete input: the map `{x: []}` behaves like
the empty map on words `[["x"]]`, both for encoding and for vocabulary
learning. -/
theorem claim10_empty_map_entry_like_absent_witness :
    (phonemes2ids [["x"]] [("x", 1)] none none none none none .words
      true true false none [] false false false (some [("x", [])]) none
      false id =
    phonemes2ids [["x"]] [("x", 1)] none none none none none .words
      true true false none [] false false false (some []) none false
      id) ∧
    (learn_phoneme_ids [["x"]] false none [] false false
      (some [("x", [])]) id =
    learn_phoneme_ids [["x"]] false none [] false false (some []) id) :=
  claim10_empty_map_entry_like_absent [["x"]] [("x", 1)] none none none
    none none .words true true false none [] false false false none
    false id "x" [] rfl

/-- The first element surviving `dropWhile` fails the predicate. -/
theorem dropWhile_head_pred_false (p : Char → Bool) (l : List Char)
    (c : Char) (h : (l.dropWhile p).head? = some c) : p c = false := by
  induction l with
  | nil => simp [List.dropWhile] at h
  | cons x xs ih =>
    by_cases hx : p x
    · rw [List.dropWhile_cons, if_pos hx] at h
      exact ih h
    · rw [List.dropWhile_cons, if_neg hx] at h
      have hcx : c = x := by simpa using h.symm
      subst hcx
      exact Bool.eq_false_iff.mpr hx

/-- C6 (amended): with tone separation enabled, for every phoneme token
the Encoder removes the maximal trailing run of characters accepted by
Python `str.isdigit` (a superset of the ASCII decimal digits) and emits
it as one tone symbol whose digits keep their original left-to-right
order, placed before the token's remaining symbols when `tone_before`
is true and after them otherwise; a token whose trailing run is empty
emits no tone.  Concretely, token `"a1"` with table
`{a1:1, b234:2, a:3, 1:4, b:5, 234:6}` resolves to `[3,4]` (tone
after) or `[4,3]` (tone before). -/
theorem claim6_tone_extraction_amended :
    (∀ (tone_before : Bool) (sep : List String) (sp : Bool)
      (pm : List (String × String)) (pmap : List (String × List String))
      (p : String),
      ∃ base ds : List Char,
        p.data = base ++ ds ∧
        (∀ c ∈ ds, pyIsDigit c = true) ∧
        (∀ c, base.getLast? = some c → pyIsDigit c = false) ∧
        encPhonemeSymbols true tone_before sep sp pm pmap p =
          (if ds.isEmpty || !tone_before then [] else [String.mk ds]) ++
          encPhonemeSymbols false tone_before sep sp pm pmap
            (String.mk base) ++
          (if ds.isEmpty || tone_before then [] else [String.mk ds])) ∧
    phonemes2ids [["a1"]]
      [("a1", 1), ("b234", 2), ("a", 3), ("1", 4), ("b", 5), ("234", 6)]
      none none none none none .words true true false none [] false true
      false none none false id = .ok [3, 4] ∧
    phonemes2ids [["a1"]]
      [("a1", 1), ("b234", 2), ("a", 3), ("1", 4), ("b", 5), ("234", 6)]
      none none none none none .words true true false none [] false true
      true none none false id = .ok [4, 3] := by
  refine ⟨?_, rfl, rfl⟩
  intro tone_before sep sp pm pmap p
  refine ⟨(p.data.reverse.dropWhile pyIsDigit).reverse,
    (p.data.reverse.takeWhile pyIsDigit).reverse, ?_, ?_, ?_, ?_⟩
  · conv_lhs => rw [← List.reverse_reverse p.data,
      ← List.takeWhile_append_dropWhile pyIsDigit p.data.reverse]
    rw [List.reverse_append]
  · intro c hc
    exact List.mem_takeWhile_imp (List.mem_reverse.mp hc)
  · intro c hc
    rw [List.getLast?_reverse] at hc
    exact dropWhile_head_pred_false pyIsDigit _ c hc
  · have hst : stripTone p =
        (String.mk (p.data.reverse.dropWhile pyIsDigit).reverse,
         String.mk (p.data.reverse.takeWhile pyIsDigit).reverse) := rfl
    generalize hb : (p.data.reverse.dropWhile pyIsDigit).reverse = base
    generalize hd : (p.data.reverse.takeWhile pyIsDigit).reverse = ds
    rw [hb, hd] at hst
    have hmk : (String.mk ds = "") ↔ (ds = []) := by
      constructor
      · intro h
        exact String.ext_iff.mp h
      · intro h
        rw [h]
    simp only [encPhonemeSymbols, hst]
    by_cases hds : ds = []
    · cases tone_before <;> simp [hds, hmk, List.isEmpty_iff]
    · cases tone_before <;> simp [hds, hmk, List.isEmpty_iff]

/-- Python `split(" ", 1)` agrees with taking the characters before and
after the first space. -/
theorem pySplitOnceSpace_eq (cs : List Char) (h : ' ' ∈ cs) :
    pySplitOnceSpace cs =
      (cs.takeWhile (fun c => !(c = ' ')),
       (cs.dropWhile (fun c => !(c = ' '))).tail) := by
  induction cs with
  | nil => cases h
  | cons c cs ih =>
    by_cases hc : c = ' '
    · subst hc
      simp [pySplitOnceSpace, List.takeWhile_cons, List.dropWhile_cons]
    · have h2 : ' ' ∈ cs := by
        rcases List.mem_cons.mp h with h1 | h1
        · exact absurd h1.symm hc
        · exact h1
      simp [pySplitOnceSpace, hc, List.takeWhile_cons, List.dropWhile_cons,
        ih h2]

/-- Elements dropped by `dropWhile` satisfy the predicate, so the rest
being all-`p` is the same as the whole list being all-`p`. -/
theorem all_dropWhile_iff (p : Char → Bool) (l : List Char) :
    (l.dropWhile p).all p = l.all p := by
  induction l with
  | nil => rfl
  | cons x xs ih =>
    by_cases hx : p x
    · rw [List.dropWhile_cons, if_pos hx, List.all_cons, hx, Bool.true_and,
        ih]
    · rw [List.dropWhile_cons, if_neg hx]

/-- Python `s.strip()` gives the empty string exactly when every
character of `s` is whitespace. -/
theorem pyStripWs_eq_empty_iff (l : List Char) :
    (pyStripWs (String.mk l) = "") ↔ l.all pyIsSpace = true := by
  unfold pyStripWs
  rw [String.ext_iff]
  show (((l.dropWhile pyIsSpace).reverse.dropWhile pyIsSpace).reverse = [])
    ↔ l.all pyIsSpace = true
  rw [List.reverse_eq_nil_iff, List.dropWhile_eq_nil_iff]
  constructor
  · intro h
    rw [← all_dropWhile_iff pyIsSpace l]
    rw [List.all_eq_true]
    intro x hx
    exact h x (List.mem_reverse.mpr hx)
  · intro h x hx
    have hx2 := List.mem_reverse.mp hx
    have := List.dropWhile_subset (p := pyIsSpace) hx2
    exact List.all_eq_true.mp h x this

/-- One line of the loader behaves as the specification states it. -/
theorem loadPhonemeMapLine_eq_spec (m : List (String × List String))
    (line : String) :
    loadPhonemeMapLine m line = loadPhonemeMapLineSpec m line := by
  unfold loadPhonemeMapLine loadPhonemeMapLineSpec
  generalize pyStripCRLF line = l
  obtain ⟨d⟩ := l
  dsimp only
  have hempty : (decide (String.mk d = "")) = d.isEmpty := by
    cases d <;> simp [String.ext_iff]
  rw [hempty]
  by_cases hskip : (d.isEmpty || pyStartsWithHash (String.mk d) ||
      !(d.contains ' ')) = true
  · rw [if_pos hskip, if_pos hskip]
  · rw [if_neg hskip, if_neg hskip]
    have hmem : ' ' ∈ d := by
      have h3 : d.contains ' ' = true := by
        by_contra hco
        have h4 : (!d.contains ' ') = true := by
          cases hcc : d.contains ' '
          · simp
          · exact absurd hcc hco
        exact hskip (Bool.or_eq_true_iff.mpr (Or.inr h4))
      simpa using h3
    rw [pySplitOnceSpace_eq d hmem]
    have hstrip : (pyStripWs (String.mk
        ((d.dropWhile (fun c => !(c = ' '))).tail)) = "") ↔
        ((d.dropWhile (fun c => !(c = ' '))).tail.all pyIsSpace = true) :=
      pyStripWs_eq_empty_iff _
    by_cases hws : (d.dropWhile (fun c => !(c = ' '))).tail.all pyIsSpace =
        true
    · rw [if_pos (hstrip.mpr hws), if_pos hws]
    · rw [if_neg (fun hh => hws (hstrip.mp hh)), if_neg hws]

/-- C8: `load_phoneme_map` skips lines that are empty, start with `#`,
or contain no space; every remaining line maps its first
space-separated field to the whitespace-separated fields of the rest of
the line, except that a right-hand side consisting entirely of
whitespace maps to the single space symbol. -/
theorem claim8_load_phoneme_map_spec (lines : List String) :
    load_phoneme_map lines = loadPhonemeMapSpec lines := by
  unfold load_phoneme_map loadPhonemeMapSpec
  have h : loadPhonemeMapLine = loadPhonemeMapLineSpec :=
    funext fun m => funext fun line => loadPhonemeMapLine_eq_spec m line
  rw [h]
